import Mathlib

set_option maxRecDepth 8000

/-!
Verification development for the donations-tracker ingestion pipeline
(`src/checker.rs`, `src/sql.rs`).  The Rust code is shallowly embedded:
pure helpers become Lean functions, the stateful ingestion steps become
functions over an explicit database state, and the outcomes of external
calls (chain RPC, explorer HTTP, name service) are passed in as explicit
call-result values.  Machine integers are modelled as `Nat` with explicit
`% 2^w` where overflow matters.
-/

namespace DonationsTracker

/-! ## Bytes, hex encoding, UTF-8

`hex::encode` (lowercase hex) and the UTF-8 byte stream of a Rust `String`
(`str::as_bytes`), both used by the hash-key generators and `namehash`.
Bytes are `Nat` values `< 256`. -/

/-- Lowercase hexadecimal digit, as produced by `hex::encode`. -/
def hexChar (n : Nat) : Char :=
  "0123456789abcdef".data.getD n '0'

/-- Two lowercase hex digits of one byte. -/
def hexByte (b : Nat) : List Char :=
  [hexChar (b / 16), hexChar (b % 16)]

/-- `hex::encode`: lowercase hex string of a byte list. -/
def hexEncode (bs : List Nat) : String :=
  String.mk (bs.map hexByte).flatten

/-- UTF-8 encoding of one character (RFC 3629). -/
def utf8Bytes (c : Char) : List Nat :=
  let n := c.toNat
  if n < 128 then [n]
  else if n < 2048 then [192 + n / 64, 128 + n % 64]
  else if n < 65536 then [224 + n / 4096, 128 + (n / 64) % 64, 128 + n % 64]
  else [240 + n / 262144, 128 + (n / 4096) % 64, 128 + (n / 64) % 64, 128 + n % 64]

/-- Byte list of a list of characters (UTF-8), `str::as_bytes`. -/
def charsBytes (cs : List Char) : List Nat :=
  (cs.map utf8Bytes).flatten

/-- Byte list of a string (UTF-8), `str::as_bytes`. -/
def strBytes (s : String) : List Nat :=
  charsBytes s.data

/-! ## SHA-256

Executable SHA-256 (FIPS 180-4), the function the `sha2` crate computes for
the hash-key generators.  32-bit words are `Nat` values `< 2^32`. -/

/-- 32-bit right rotation. -/
def rotr32 (n x : Nat) : Nat :=
  ((x >>> n) ||| (x <<< (32 - n))) % 4294967296

/-- SHA-256 lowercase sigma-0. -/
def shaS0 (x : Nat) : Nat := rotr32 7 x ^^^ rotr32 18 x ^^^ (x >>> 3)

/-- SHA-256 lowercase sigma-1. -/
def shaS1 (x : Nat) : Nat := rotr32 17 x ^^^ rotr32 19 x ^^^ (x >>> 10)

/-- SHA-256 uppercase Sigma-0. -/
def shaB0 (x : Nat) : Nat := rotr32 2 x ^^^ rotr32 13 x ^^^ rotr32 22 x

/-- SHA-256 uppercase Sigma-1. -/
def shaB1 (x : Nat) : Nat := rotr32 6 x ^^^ rotr32 11 x ^^^ rotr32 25 x

/-- SHA-256 round constants (FIPS 180-4 §4.2.2, written in decimal). -/
def shaK : List Nat :=
  [1116352408, 1899447441, 3049323471, 3921009573, 961987163,
   1508970993, 2453635748, 2870763221, 3624381080, 310598401,
   607225278, 1426881987, 1925078388, 2162078206, 2614888103,
   3248222580, 3835390401, 4022224774, 264347078, 604807628,
   770255983, 1249150122, 1555081692, 1996064986, 2554220882,
   2821834349, 2952996808, 3210313671, 3336571891, 3584528711,
   113926993, 338241895, 666307205, 773529912, 1294757372,
   1396182291, 1695183700, 1986661051, 2177026350, 2456956037,
   2730485921, 2820302411, 3259730800, 3345764771, 3516065817,
   3600352804, 4094571909, 275423344, 430227734, 506948616,
   659060556, 883997877, 958139571, 1322822218, 1537002063,
   1747873779, 1955562222, 2024104815, 2227730452, 2361852424,
   2428436474, 2756734187, 3204031479, 3329325298]

/-- SHA-256 initial hash values (FIPS 180-4 §5.3.3, in decimal). -/
def shaInitH : List Nat :=
  [1779033703, 3144134277, 1013904242, 2773480762,
   1359893119, 2600822924, 528734635, 1541459225]

/-- Big-endian 8-byte encoding of a 64-bit value. -/
def beBytes8 (n : Nat) : List Nat :=
  [(n >>> 56) % 256, (n >>> 48) % 256, (n >>> 40) % 256, (n >>> 32) % 256,
   (n >>> 24) % 256, (n >>> 16) % 256, (n >>> 8) % 256, n % 256]

/-- SHA-256 padding: `0x80`, zeros, 64-bit big-endian bit length. -/
def shaPad (msg : List Nat) : List Nat :=
  let L := msg.length
  msg ++ [128] ++ List.replicate ((64 - (L + 9) % 64) % 64) 0 ++ beBytes8 (8 * L)

/-- Big-endian 32-bit words of a byte stream. -/
def bytesToWords : List Nat → List Nat
  | a :: b :: c :: d :: rest => (a * 16777216 + b * 65536 + c * 256 + d) :: bytesToWords rest
  | _ => []

/-- Bytes of a list of big-endian 32-bit words. -/
def wordsToBytes (ws : List Nat) : List Nat :=
  (ws.map fun w => [(w >>> 24) % 256, (w >>> 16) % 256, (w >>> 8) % 256, w % 256]).flatten

/-- Extend the 16-word block by `fuel` schedule words. -/
def shaExtendAux : Nat → List Nat → List Nat
  | 0, w => w
  | fuel + 1, w =>
    let n := w.length
    let nw := (w.getD (n - 16) 0 + shaS0 (w.getD (n - 15) 0) +
               w.getD (n - 7) 0 + shaS1 (w.getD (n - 2) 0)) % 4294967296
    shaExtendAux fuel (w ++ [nw])

/-- SHA-256 message schedule: 64 words from a 16-word block. -/
def shaExtend (w : List Nat) : List Nat := shaExtendAux 48 w

/-- One SHA-256 compression round on the working state. -/
def shaRound (st : Nat × Nat × Nat × Nat × Nat × Nat × Nat × Nat) (kw : Nat × Nat) :
    Nat × Nat × Nat × Nat × Nat × Nat × Nat × Nat :=
  let (a, b, c, d, e, f, g, h) := st
  let ch := (e &&& f) ^^^ ((e ^^^ 4294967295) &&& g)
  let t1 := (h + shaB1 e + ch + kw.1 + kw.2) % 4294967296
  let maj := (a &&& b) ^^^ (a &&& c) ^^^ (b &&& c)
  let t2 := (shaB0 a + maj) % 4294967296
  ((t1 + t2) % 4294967296, a, b, c, (d + t1) % 4294967296, e, f, g)

/-- Compress one 16-word block into the running hash state. -/
def shaCompressBlock (h : List Nat) (block : List Nat) : List Nat :=
  let w := shaExtend block
  let st0 := (h.getD 0 0, h.getD 1 0, h.getD 2 0, h.getD 3 0,
              h.getD 4 0, h.getD 5 0, h.getD 6 0, h.getD 7 0)
  let stF := (shaK.zip w).foldl shaRound st0
  let (a, b, c, d, e, f, g, hh) := stF
  [(h.getD 0 0 + a) % 4294967296, (h.getD 1 0 + b) % 4294967296,
   (h.getD 2 0 + c) % 4294967296, (h.getD 3 0 + d) % 4294967296,
   (h.getD 4 0 + e) % 4294967296, (h.getD 5 0 + f) % 4294967296,
   (h.getD 6 0 + g) % 4294967296, (h.getD 7 0 + hh) % 4294967296]

/-- Fold the compression function over the word stream, 16 words at a time.
`fuel` bounds the number of blocks; it is instantiated with the word count,
which always suffices. -/
def shaBlocksAux : Nat → List Nat → List Nat → List Nat
  | 0, h, _ => h
  | fuel + 1, h, ws =>
    if ws.isEmpty then h
    else shaBlocksAux fuel (shaCompressBlock h (ws.take 16)) (ws.drop 16)

/-- SHA-256 digest (32 bytes) of a byte stream. -/
def sha256 (msg : List Nat) : List Nat :=
  let ws := bytesToWords (shaPad msg)
  wordsToBytes (shaBlocksAux ws.length shaInitH ws)

/-- FIPS 180-4 test vector: SHA-256 of "abc". -/
theorem sha256_abc :
    hexEncode (sha256 (strBytes "abc")) =
      "ba7816bf8f01cfea414140de5dae2223b00361a396177a9cb410ff61f20015ad" := by
  decide

/-! ## IEEE-754 binary64 model

`check_transfers` and `process_donation_event` compute
`format!("{:.18}", (value_in_wei as f64) / 1e18f64)`.  The double-precision
values arising here are positive and far inside the normal range, so a
float is modelled as a significand/exponent pair `m * 2^e` with
`2^52 ≤ m < 2^53` (or `m = 0`), and every operation rounds the exact
rational result to 53 significant bits, round-to-nearest, ties to even —
exactly the IEEE-754 semantics of the `u128 as f64` cast and of float
division for these operands. -/

/-- Floor of log2 via explicit fuel (kernel-reducible). -/
def log2Aux : Nat → Nat → Nat
  | 0, _ => 0
  | fuel + 1, n => if n < 2 then 0 else log2Aux fuel (n / 2) + 1

/-- Floor of log2; `natLog2 0 = 0`. -/
def natLog2 (n : Nat) : Nat := log2Aux n n

/-- Round `a / b` to the nearest integer, ties to even (`b > 0`). -/
def roundHalfEvenDiv (a b : Nat) : Nat :=
  let q := a / b
  let r := a % b
  if b < 2 * r then q + 1
  else if 2 * r < b then q
  else if q % 2 = 0 then q else q + 1

/-- A nonnegative binary64 value `m * 2^e`. -/
structure F64 where
  m : Nat
  e : Int
deriving DecidableEq

/-- Round `num / den` to a 53-bit significand at binade exponent `e`. -/
def mantissaAt (num den : Nat) (e : Int) : Nat :=
  if 0 ≤ e then roundHalfEvenDiv num (den * 2 ^ e.toNat)
  else roundHalfEvenDiv (num * 2 ^ (-e).toNat) den

/-- Round the positive rational `num / den` to the nearest binary64
(round-to-nearest, ties to even; operands stay in the normal range). -/
def ratToF64 (num den : Nat) : F64 :=
  if num = 0 then ⟨0, 0⟩
  else
    let e0 : Int := (natLog2 num : Int) - (natLog2 den : Int) - 52
    let m0 := mantissaAt num den e0
    if m0 < 2 ^ 52 then
      let m1 := mantissaAt num den (e0 - 1)
      if m1 = 2 ^ 53 then ⟨2 ^ 52, e0⟩ else ⟨m1, e0 - 1⟩
    else if m0 = 2 ^ 53 then ⟨2 ^ 52, e0 + 1⟩
    else ⟨m0, e0⟩

/-- The `u128 as f64` cast: round to nearest, ties to even. -/
def natToF64 (n : Nat) : F64 := ratToF64 n 1

/-- The literal `1e18f64` (exactly representable: `10^18 = 7812500000000000 * 2^7`). -/
def f64OneE18 : F64 := natToF64 (10 ^ 18)

/-- Correctly rounded binary64 division (divisor nonzero). -/
def divF64 (x y : F64) : F64 :=
  if x.m = 0 then ⟨0, 0⟩
  else
    let d : Int := x.e - y.e
    ratToF64 (x.m * 2 ^ (max d 0).toNat) (y.m * 2 ^ (max (-d) 0).toNat)

/-- Left-pad a digit string with zeros to 18 characters. -/
def pad18 (s : String) : String :=
  String.mk (List.replicate (18 - s.length) '0') ++ s

/-- Rust's `format!("{:.18}", x)` for a nonnegative binary64 `x`: the exact
decimal value of the float, rounded to 18 fractional digits (ties to even),
with at least one integer digit. -/
def fmtF64Dec18 (x : F64) : String :=
  let n : Nat :=
    if 0 ≤ x.e then x.m * 2 ^ x.e.toNat * 10 ^ 18
    else roundHalfEvenDiv (x.m * 10 ^ 18) (2 ^ (-x.e).toNat)
  Nat.repr (n / 10 ^ 18) ++ "." ++ pad18 (Nat.repr (n % 10 ^ 18))

/-- `format!("{:.18}", (value_in_wei as f64) / 1e18f64)`, the display-amount
conversion in `check_transfers` and `process_donation_event`. -/
def ethAmountDisplay (value_in_wei : Nat) : String :=
  fmtF64Dec18 (divF64 (natToF64 value_in_wei) f64OneE18)

/-- Follows the spec's words: the *exact* fixed-18-decimal display of an
integer base-unit (wei) value, for comparison with `ethAmountDisplay`. -/
def specExactDisplay (value_in_wei : Nat) : String :=
  Nat.repr (value_in_wei / 10 ^ 18) ++ "." ++ pad18 (Nat.repr (value_in_wei % 10 ^ 18))

/-! ## Decimal parsing (`str::parse::<u128>()`) -/

/-- Parse a decimal digit. -/
def digitVal? (c : Char) : Option Nat :=
  if '0' ≤ c ∧ c ≤ '9' then some (c.toNat - 48) else none

/-- Accumulate decimal digits; `none` on a non-digit. -/
def parseDigits : List Char → Nat → Option Nat
  | [], acc => some acc
  | c :: cs, acc =>
    match digitVal? c with
    | some d => parseDigits cs (acc * 10 + d)
    | none => none

/-- `str::parse::<u128>()`: `some` exactly on (optionally `+`-signed)
all-digit strings whose value fits in a `u128` (overflow is a parse error
in Rust). -/
def parseU128? (s : String) : Option Nat :=
  let ds := if s.data.headD ' ' = '+' then s.data.tail else s.data
  if ds = [] then none
  else
    match parseDigits ds 0 with
    | some n => if n < 2 ^ 128 then some n else none
    | none => none

/-- `tx.value.parse().unwrap_or(0)`. -/
def parseU128OrZero (s : String) : Nat := (parseU128? s).getD 0

/-- Lowercase one character (`str::to_lowercase`; the strings compared
here are ASCII addresses). -/
def charToLower (c : Char) : Char :=
  if 'A' ≤ c ∧ c ≤ 'Z' then Char.ofNat (c.toNat + 32) else c

/-- `str::to_lowercase()`. -/
def strToLower (s : String) : String := String.mk (s.data.map charToLower)

/-! ## Addresses

Modelled from the spec: the 20-byte account-address type of the `alloy`
crate (not under `src/`).  Per the spec, the display fallback and the
reverse-lookup label use the "normalized (lowercase-hex) form" of an
address ("`<lowercase-hex-address>.addr.reverse`", stored fallback
`"0xaa.."`), so both renderings (`format!("{:?}", addr)` and
`addr.to_string()`) are modelled as `0x` plus lowercase hex, and parsing
(`Address::from_str`) accepts an optionally `0x`-prefixed string of
exactly 40 hex digits, case-insensitive. -/

/-- A 20-byte account address. -/
structure Address where
  bytes : List Nat
deriving DecidableEq

/-- `Address::ZERO`. -/
def Address.zero : Address := ⟨List.replicate 20 0⟩

/-- Value of one hex digit, case-insensitive. -/
def hexDigitVal? (c : Char) : Option Nat :=
  if '0' ≤ c ∧ c ≤ '9' then some (c.toNat - 48)
  else if 'a' ≤ c ∧ c ≤ 'f' then some (c.toNat - 87)
  else if 'A' ≤ c ∧ c ≤ 'F' then some (c.toNat - 55)
  else none

/-- Bytes of a hex-digit string (pairs of digits); `none` on a non-digit. -/
def hexBytes? : List Char → Option (List Nat)
  | [] => some []
  | hi :: lo :: rest =>
    match hexDigitVal? hi, hexDigitVal? lo, hexBytes? rest with
    | some h, some l, some bs => some ((h * 16 + l) :: bs)
    | _, _, _ => none
  | _ => none

/-- Modelled from the spec: `Address::from_str` — optionally `0x`-prefixed,
exactly 40 hex digits. -/
def Address.fromStr? (s : String) : Option Address :=
  let ds :=
    match s.data with
    | '0' :: 'x' :: rest => rest
    | '0' :: 'X' :: rest => rest
    | other => other
  if ds.length = 40 then (hexBytes? ds).map Address.mk else none

/-- Modelled from the spec: `format!("{:?}", address)` — the normalized
`0x`-prefixed lowercase-hex rendering (the fallback display name in
`check_transfers`). -/
def Address.debugString (a : Address) : String :=
  "0x" ++ hexEncode a.bytes

/-- Modelled from the spec: `address.to_string()` — the normalized
rendering used for the donor field in `process_donation_event`. -/
def Address.displayString (a : Address) : String :=
  "0x" ++ hexEncode a.bytes

/-- Modelled from the spec: `B256` (32-byte hash) rendered as
`0x`-prefixed lowercase hex; `B256::default()` is all zeros. -/
def b256String (bs : List Nat) : String :=
  "0x" ++ hexEncode bs

/-! ## Hash keys (`generate_transfer_hash_key`, `generate_donation_hash_key`) -/

/-- `format!("{}{}{}", amount_wei, from_address, tx_hash)`: the
concatenated canonical fields hashed for a transfer key. -/
def transferHashInput (amount_wei from_address tx_hash : String) : String :=
  amount_wei ++ from_address ++ tx_hash

/-- `generate_transfer_hash_key`: hex-encoded SHA-256 of the concatenated
fields. -/
def generate_transfer_hash_key (amount_wei from_address tx_hash : String) : String :=
  hexEncode (sha256 (strBytes (transferHashInput amount_wei from_address tx_hash)))

/-- `format!("{}{}{}{}", amount_wei, from_address, tx_hash, log_index)`:
the concatenated canonical fields hashed for a donation key. -/
def donationHashInput (amount_wei from_address tx_hash log_index : String) : String :=
  amount_wei ++ from_address ++ tx_hash ++ log_index

/-- `generate_donation_hash_key`: hex-encoded SHA-256 of the concatenated
fields. -/
def generate_donation_hash_key (amount_wei from_address tx_hash log_index : String) : String :=
  hexEncode (sha256 (strBytes (donationHashInput amount_wei from_address tx_hash log_index)))

/-! ## `namehash`

The `namehash` in `checker.rs` is embedded parametrically in the Keccak-256
function: the `tiny_keccak` crate is not under `src/`, and every claim
about `namehash` states its result *in terms of* `keccak256`, so the
theorems hold for every instantiation of the parameter. -/

/-- The 32-byte zero node that starts the namehash fold. -/
def zero32 : List Nat := List.replicate 32 0

/-- Rust's `str::split('.')`: split at every dot, keeping empty pieces. -/
def splitDot : List Char → List (List Char)
  | [] => [[]]
  | c :: cs =>
    if c = '.' then [] :: splitDot cs
    else
      match splitDot cs with
      | l :: ls => (c :: l) :: ls
      | [] => [[c]]

/-- The namehash loop: fold the labels (already reversed to root-to-leaf
order), setting `node = keccak256(node ++ keccak256(label))`. -/
def namehashNode (keccak : List Nat → List Nat) (labels : List (List Char)) : List Nat :=
  labels.foldl (fun node label => keccak (node ++ keccak (charsBytes label))) zero32

/-- `namehash` from `checker.rs`: `None` on the empty name, otherwise the
`0x`-prefixed hex of the folded node over the reversed dot-split labels. -/
def namehash (keccak : List Nat → List Nat) (name : String) : Option String :=
  if name = "" then none
  else some ("0x" ++ hexEncode (namehashNode keccak (splitDot name.data).reverse))

/-- The reverse-lookup label `format!("{:x}.addr.reverse", address)`
(modelled from the spec: `"<lowercase-hex-address>.addr.reverse"`). -/
def reverseName (a : Address) : String :=
  hexEncode a.bytes ++ ".addr.reverse"

/-! ## External call outcomes and ENS resolution (`resolve_ens_name`) -/

/-- Outcome of one fallible external call: `Ok` value or failure (the
failure message of the transport / RPC error). -/
inductive CallRes (α : Type) where
  | ok (val : α)
  | fail (msg : String)
deriving DecidableEq

/-- Result of `resolve_ens_name` as observed by its caller: a resolved
name, no name (`None`), or a panic — the function calls
`.expect("Failed to call resolver")` / `.expect("Failed to call name")`
on the two contract-call results, so a failed call panics. -/
inductive ResolveOutcome where
  | name (s : String)
  | noName
  | panicked
deriving DecidableEq

/-- The outcomes the name service would give for an address: the
`resolver(bytes32)` registry call and the `name(bytes32)` resolver call.
The namehash-derived `bytes32` argument (always `some` for the nonempty
reverse name, see `reverseName_namehash_isSome`) only selects which record
is read, which this oracle abstracts. -/
def EnsOracle : Type := Address → CallRes Address × CallRes String

/-- `resolve_ens_name` from `checker.rs`: reverse-resolve an address.
A failed `resolver` call panics (`.expect`); a zero resolver address
returns `None`; a failed `name` call panics (`.expect`); an empty name
returns `None`; otherwise `Some(name)`. -/
def resolve_ens_name (ens : EnsOracle) (address : Address) : ResolveOutcome :=
  match (ens address).1 with
  | .fail _ => .panicked
  | .ok resolver_addr =>
    if resolver_addr = Address.zero then .noName
    else
      match (ens address).2 with
      | .fail _ => .panicked
      | .ok end_name => if end_name = "" then .noName else .name end_name

/-! ## Persistence model (`sql.rs`)

The database is an explicit in-memory state; `sql.rs` reaches it only
through existence checks and inserts.  The donation insert carries the
source's `ON CONFLICT` statement, transcribed below: its `SET` list ends
with a dangling comma, which PostgreSQL rejects as a syntax error, so the
statement never executes (see `donation_upsert_sql_rejected`). -/

/-- One row of `eth_transfers`. -/
structure TransferRow where
  tx_hash : String
  from_address : String
  eth_amount : String
  hash_key : String
  from_name : String
deriving DecidableEq

/-- One row of `donations`. -/
structure DonationRow where
  removed : Bool
  tx_hash : String
  log_index : String
  from_address : String
  eth_amount : String
  hash_key : String
  from_name : String
deriving DecidableEq

/-- The persisted state: both tables. -/
structure DbState where
  eth_transfers : List TransferRow
  donations : List DonationRow
deriving DecidableEq

/-- The empty database. -/
def dbEmpty : DbState := ⟨[], []⟩

/-- `DbClient::check_transfer_exists`:
`SELECT COUNT(*) FROM eth_transfers WHERE hash_key = $1` compared with 0. -/
def check_transfer_exists (hash_key : String) (db : DbState) : Bool :=
  db.eth_transfers.any fun r => r.hash_key == hash_key

/-- `DbClient::check_donation_exists`:
`SELECT COUNT(*) FROM donations WHERE hash_key = $1` compared with 0. -/
def check_donation_exists (hash_key : String) (db : DbState) : Bool :=
  db.donations.any fun r => r.hash_key == hash_key

/-- `DbClient::insert_transfer`: a plain `INSERT` appending one row. -/
def insert_transfer (tx_hash from_address eth_amount hash_key from_name : String)
    (db : DbState) : DbState :=
  { db with eth_transfers :=
      db.eth_transfers ++ [⟨tx_hash, from_address, eth_amount, hash_key, from_name⟩] }

/-- The SQL text of `DbClient::insert_donation` (whitespace normalized;
the dangling comma at the end of the `SET` list is verbatim from
`sql.rs`). -/
def donationUpsertSqlText : String :=
  "INSERT INTO donations ( removed, tx_hash, log_index, from_address, eth_amount, hash_key, from_name ) VALUES ($1, $2, $3, $4, $5, $6, $7) ON CONFLICT (hash_key) DO UPDATE SET removed = EXCLUDED.removed, "

/-- PostgreSQL parse check for this statement: an `UPDATE SET` list whose
last non-whitespace character is a comma has a dangling assignment and is
rejected with a syntax error. -/
def donationUpsertParses : Bool :=
  !((donationUpsertSqlText.data.reverse.dropWhile Char.isWhitespace).headD ' ' == ',')

/-- `DbClient::insert_donation`: execute the upsert.  Were the statement
syntactically valid it would insert, or on a `hash_key` conflict update
only `removed`; PostgreSQL rejects the statement (dangling comma), so it
returns the mapped error. -/
def insert_donation (removed : Bool)
    (tx_hash log_index from_address eth_amount hash_key from_name : String)
    (db : DbState) : Except String DbState :=
  if donationUpsertParses then
    .ok <|
      if check_donation_exists hash_key db then
        { db with donations :=
            db.donations.map fun r =>
              if r.hash_key == hash_key then { r with removed := removed } else r }
      else
        { db with donations :=
            db.donations ++
              [⟨removed, tx_hash, log_index, from_address, eth_amount, hash_key, from_name⟩] }
  else
    .error "Failed to insert donation: syntax error at end of input"

/-! ## Transfer reconciliation (`Checker::check_transfers`) -/

/-- One entry of an Etherscan `result` array. -/
structure TransactionInfo where
  from_ : String
  to_ : String
  value : String
  hash : String
deriving DecidableEq

/-- A decoded Etherscan response. -/
structure EtherscanResponse where
  status : String
  result : List TransactionInfo
deriving DecidableEq

/-- Outcome of one ingestion step as seen by the poll loop: `Ok`, a
returned error (`eyre::Result`), or a propagated panic. -/
inductive StepResult where
  | ok (db : DbState)
  | error (msg : String)
  | panicked
deriving DecidableEq

/-- The per-transaction loop of `check_transfers` over the concatenated
transaction lists: keep entries whose `to` equals the target address
case-insensitively and whose parsed value is nonzero, skip already
persisted hash keys, otherwise parse the sender address (`?` on failure),
resolve its ENS name (falling back to the debug-formatted address), format
the amount and insert. -/
def processTxs (target_address : String) (ens : EnsOracle) :
    List TransactionInfo → DbState → StepResult
  | [], db => .ok db
  | tx :: rest, db =>
    if strToLower tx.to_ == strToLower target_address then
      if 0 < parseU128OrZero tx.value then
        let hash_key := generate_transfer_hash_key tx.value tx.from_ tx.hash
        if check_transfer_exists hash_key db then
          processTxs target_address ens rest db
        else
          match Address.fromStr? tx.from_ with
          | none => .error "invalid address string"
          | some from_address =>
            let insertAndContinue := fun (from_display : String) =>
              let value_in_wei := parseU128OrZero tx.value
              let eth_amount := ethAmountDisplay value_in_wei
              processTxs target_address ens rest
                (insert_transfer tx.hash tx.from_ eth_amount hash_key from_display db)
            match resolve_ens_name ens from_address with
            | .panicked => .panicked
            | .noName => insertAndContinue from_address.debugString
            | .name n => insertAndContinue n
      else
        processTxs target_address ens rest db
    else
      processTxs target_address ens rest db

/-- `Checker::check_transfers`: fetch both explorer lists (`?` propagates a
transport/decode failure of either call), return the aggregate error when
both responses report a non-`"1"` status, otherwise process the
concatenated `result` arrays. -/
def check_transfers (target_address : String) (ens : EnsOracle)
    (normal internal : CallRes EtherscanResponse) (db : DbState) : StepResult :=
  match normal with
  | .fail msg => .error msg
  | .ok normal_response =>
    match internal with
    | .fail msg => .error msg
    | .ok internal_response =>
      if normal_response.status != "1" && internal_response.status != "1" then
        .error "Failed to fetch data from Etherscan"
      else
        processTxs target_address ens (normal_response.result ++ internal_response.result) db

/-! ## Donation processing (`Checker::process_donation_event`) -/

/-- A successfully decoded `Donation(address indexed donor, uint256 amount)`
event body. -/
structure DecodedDonation where
  donor : Address
  amount : Nat
deriving DecidableEq

/-- An RPC log as handed to `process_donation_event`: the decode outcome of
`log.log_decode::<IDonate::Donation>()`, the reorg `removed` flag, and the
optional transaction hash (32 bytes) and log index. -/
structure RpcLog where
  decoded : Option DecodedDonation
  removed : Bool
  transaction_hash : Option (List Nat)
  log_index : Option Nat
deriving DecidableEq

/-- `Checker::process_donation_event`: decode failure is logged and
swallowed (`Ok`); otherwise derive the hash key, check existence, resolve
the donor name only for unseen keys (empty display otherwise), parse the
amount string into a `u128` falling back to 0, format it, and upsert. -/
def process_donation_event (ens : EnsOracle) (log : RpcLog) (db : DbState) : StepResult :=
  match log.decoded with
  | none => .ok db
  | some decoded =>
    let tx_hash := b256String (log.transaction_hash.getD (List.replicate 32 0))
    let log_index := Nat.repr (log.log_index.getD 0)
    let amount := Nat.repr decoded.amount
    let donor := decoded.donor.displayString
    let hash_key := generate_donation_hash_key amount donor tx_hash log_index
    let exDonation := check_donation_exists hash_key db
    let from_display? : Option String :=
      if exDonation then some ""
      else
        match resolve_ens_name ens decoded.donor with
        | .panicked => none
        | .noName => some donor
        | .name n => some n
    match from_display? with
    | none => .panicked
    | some from_display =>
      let value_in_wei := parseU128OrZero amount
      let eth_amount := ethAmountDisplay value_in_wei
      match insert_donation log.removed tx_hash log_index donor eth_amount hash_key
          from_display db with
      | .ok db2 => .ok db2
      | .error msg => .error msg

/-! ## Backfill windowing (`Checker::process_past_logs`) -/

/-- The block windows `[from_block, to_block]` queried by
`process_past_logs`, in query order: starting from the chain head, while
`start_block < current_end_block` query
`[if 49999 ≤ end then end - 49999 else 0, end]` and continue from that
window's start. -/
def backfillWindows (start_block : Nat) (current_end_block : Nat) : List (Nat × Nat) :=
  if h : start_block < current_end_block then
    ((if 49999 ≤ current_end_block then current_end_block - 49999 else 0),
      current_end_block) ::
      backfillWindows start_block
        (if 49999 ≤ current_end_block then current_end_block - 49999 else 0)
  else
    []
termination_by current_end_block
decreasing_by split <;> omega

/-! ## Shared concrete values for witnesses and counterexamples -/

/-- The monitored target address used in concrete scenarios. -/
def targetAddr : String := "0xBBBBBBBBBBBBBBBBBBBBBBBBBBBBBBBBBBBBBBBB"

/-- A sender address string as an explorer would report it (mixed case). -/
def fromAddrStr : String := "0xAAAAAAAAAAAAAAAAAAAAAAAAAAAAAAAAAAAAAAAA"

/-- The 20-byte value of `fromAddrStr`. -/
def addrAA : Address := ⟨List.replicate 20 170⟩

/-- The spec's end-to-end explorer entry: one 1-ETH transfer to the target. -/
def txOneEth : TransactionInfo :=
  ⟨fromAddrStr, targetAddr, "1000000000000000000", "0x1"⟩

/-- Name-service oracle with no reverse record: the registry returns the
zero resolver address for every node. -/
def ensNoRecord : EnsOracle := fun _ => (.ok Address.zero, .ok "")

/-- Name-service oracle whose `resolver(bytes32)` registry call fails. -/
def ensResolverCallFails : EnsOracle := fun _ => (.fail "connection timed out", .ok "")

/-- Name-service oracle whose `name(bytes32)` resolver call fails. -/
def ensNameCallFails : EnsOracle := fun _ => (.ok addrAA, .fail "connection timed out")

/-- The database after ingesting `txOneEth` from empty. -/
def dbOneEth : DbState :=
  ⟨[⟨"0x1", fromAddrStr, "1.000000000000000000",
     generate_transfer_hash_key "1000000000000000000" fromAddrStr "0x1",
     "0xaaaaaaaaaaaaaaaaaaaaaaaaaaaaaaaaaaaaaaaa"⟩], []⟩

/-- A constant stand-in Keccak-256 used to instantiate the parametric
`namehash` theorems in witnesses. -/
def keccakConst : List Nat → List Nat := fun _ => List.replicate 32 7

/-! ## Helper lemmas -/

/-- Strings with equal character lists are equal. -/
theorem stringDataInj {s t : String} (h : s.data = t.data) : s = t := by
  cases s; cases t; exact congrArg String.mk h

/-- Right cancellation for string concatenation. -/
theorem strAppendCancelRight {a b r : String} (h : a ++ r = b ++ r) : a = b := by
  apply stringDataInj
  have hd : a.data ++ r.data = b.data ++ r.data := by
    rw [← String.data_append, ← String.data_append, h]
  exact List.append_cancel_right hd

/-- Left cancellation for string concatenation. -/
theorem strAppendCancelLeft {l a b : String} (h : l ++ a = l ++ b) : a = b := by
  apply stringDataInj
  have hd : l.data ++ a.data = l.data ++ b.data := by
    rw [← String.data_append, ← String.data_append, h]
  exact List.append_cancel_left hd

/-- Splitting a dot-free character list yields the single piece. -/
theorem splitDot_no_dot : ∀ (l : List Char), '.' ∉ l → splitDot l = [l] := by
  intro l
  induction l with
  | nil => intro _; rfl
  | cons c cs ih =>
    intro h
    have hc : ¬ c = '.' := fun hh => h (hh ▸ List.mem_cons_self c cs)
    have hcs : '.' ∉ cs := fun hh => h (List.mem_cons_of_mem c hh)
    simp only [splitDot, if_neg hc, ih hcs]

/-- Splitting around the first dot peels off the dot-free head label. -/
theorem splitDot_append : ∀ (l1 l2 : List Char), '.' ∉ l1 →
    splitDot (l1 ++ '.' :: l2) = l1 :: splitDot l2 := by
  intro l1 l2
  induction l1 with
  | nil => intro _; simp [splitDot]
  | cons c cs ih =>
    intro h
    have hc : ¬ c = '.' := fun hh => h (hh ▸ List.mem_cons_self c cs)
    have hcs : '.' ∉ cs := fun hh => h (List.mem_cons_of_mem c hh)
    simp only [List.cons_append, splitDot, if_neg hc, List.append_eq, ih hcs]

/-- `hexChar` only produces lowercase hexadecimal digits. -/
theorem hexChar_not_upper (n : Nat) : (hexChar n).isUpper = false := by
  rcases Nat.lt_or_ge n 16 with h | h
  · interval_cases n <;> decide
  · have h2 : ("0123456789abcdef".data)[n]? = none := by
      apply List.getElem?_eq_none
      simpa using h
    simp [hexChar, List.getD, h2]

/-- Every character of a hex-encoded byte string is lowercase. -/
theorem hexEncode_not_upper (bs : List Nat) :
    ∀ c ∈ (hexEncode bs).data, c.isUpper = false := by
  intro c hc
  simp only [hexEncode, List.mem_flatten, List.mem_map] at hc
  obtain ⟨l, ⟨b, _, rfl⟩, hcl⟩ := hc
  simp only [hexByte, List.mem_cons, List.mem_singleton] at hcl
  rcases hcl with rfl | rfl | h
  · exact hexChar_not_upper _
  · exact hexChar_not_upper _
  · cases h

/-! ## C5 — hash keys are deterministic and field-sensitive -/

/-- **C5.** The transfer hash key is a deterministic pure function of
`(amount, sender, tx hash)`: equal inputs give equal hex-encoded SHA-256
keys (likewise the donation key over its four fields).  The claim's
"changing one field produces a different key with overwhelming
probability" is rendered by its non-probabilistic core: changing exactly
one field always changes the concatenated SHA-256 *input* (string
concatenation is cancellative), and on concrete examples the keys
themselves differ. -/
theorem hash_keys_deterministic_and_field_sensitive :
    (∀ a s h a' s' h', a = a' → s = s' → h = h' →
      generate_transfer_hash_key a s h = generate_transfer_hash_key a' s' h') ∧
    (∀ a s h i a' s' h' i', a = a' → s = s' → h = h' → i = i' →
      generate_donation_hash_key a s h i = generate_donation_hash_key a' s' h' i') ∧
    (∀ a a' s h, a ≠ a' → transferHashInput a s h ≠ transferHashInput a' s h) ∧
    (∀ s s' a h, s ≠ s' → transferHashInput a s h ≠ transferHashInput a s' h) ∧
    (∀ h h' a s, h ≠ h' → transferHashInput a s h ≠ transferHashInput a s h') ∧
    (∀ a a' s h i, a ≠ a' → donationHashInput a s h i ≠ donationHashInput a' s h i) ∧
    (∀ s s' a h i, s ≠ s' → donationHashInput a s h i ≠ donationHashInput a s' h i) ∧
    (∀ h h' a s i, h ≠ h' → donationHashInput a s h i ≠ donationHashInput a s h' i) ∧
    (∀ i i' a s h, i ≠ i' → donationHashInput a s h i ≠ donationHashInput a s h i') ∧
    generate_transfer_hash_key "1" "0xaa" "0xh1" ≠
      generate_transfer_hash_key "2" "0xaa" "0xh1" ∧
    generate_donation_hash_key "5" "0xdd" "0xh1" "0" ≠
      generate_donation_hash_key "5" "0xdd" "0xh1" "1" := by
  refine ⟨?_, ?_, ?_, ?_, ?_, ?_, ?_, ?_, ?_, ?_, ?_⟩
  · intro a s h a' s' h' ha hs hh; rw [ha, hs, hh]
  · intro a s h i a' s' h' i' ha hs hh hi; rw [ha, hs, hh, hi]
  · intro a a' s h hne he
    exact hne (strAppendCancelRight (strAppendCancelRight
      (by simpa [transferHashInput] using he)))
  · intro s s' a h hne he
    exact hne (strAppendCancelLeft (l := a) (strAppendCancelRight
      (by simpa [transferHashInput] using he)))
  · intro h h' a s hne he
    exact hne (strAppendCancelLeft (l := a ++ s)
      (by simpa [transferHashInput] using he))
  · intro a a' s h i hne he
    exact hne (strAppendCancelRight (strAppendCancelRight (strAppendCancelRight
      (by simpa [donationHashInput] using he))))
  · intro s s' a h i hne he
    exact hne (strAppendCancelLeft (l := a) (strAppendCancelRight (strAppendCancelRight
      (by simpa [donationHashInput] using he))))
  · intro h h' a s i hne he
    exact hne (strAppendCancelLeft (l := a ++ s) (strAppendCancelRight
      (by simpa [donationHashInput] using he)))
  · intro i i' a s h hne he
    exact hne (strAppendCancelLeft (l := a ++ s ++ h)
      (by simpa [donationHashInput] using he))
  · decide
  · decide

/-- **C5 witness.** The field-sensitivity conjunct at concrete inputs:
changing only the amount changes the hashed input. -/
theorem hash_keys_deterministic_and_field_sensitive_witness :
    transferHashInput "1" "0xaa" "0xh1" ≠ transferHashInput "2" "0xaa" "0xh1" :=
  hash_keys_deterministic_and_field_sensitive.2.2.1 "1" "2" "0xaa" "0xh1" (by decide)

/-! ## C9 — namehash structure -/

/-- The reverse name is never empty, so `namehash` never returns `none`
inside `resolve_ens_name` (justifying that the call-outcome oracle
abstracts the node argument). -/
theorem reverseName_namehash_isSome (keccak : List Nat → List Nat) (a : Address) :
    (namehash keccak (reverseName a)).isSome := by
  have : reverseName a ≠ "" := by
    intro h
    have := congrArg String.data h
    simp only [reverseName, String.data_append] at this
    have h13 : (".addr.reverse" : String).data.length = 13 := by decide
    have := congrArg List.length this
    simp [h13] at this
  simp [namehash, this]

/-- **C9.** For every Keccak-256 function: `namehash("")` is `none`; the
namehash of a single dot-free label is the hex of
`keccak256(zero32 ++ keccak256(label))`; a two-label name `l1.l2` is
hashed from the 32-byte zero node iterating labels in root-to-leaf order
(the reverse of the dot-split sequence):
`keccak256(keccak256(zero32 ++ keccak256(l2)) ++ keccak256(l1))`. -/
theorem namehash_structure :
    (∀ keccak, namehash keccak "" = none) ∧
    (∀ keccak (label : String), label ≠ "" → ('.' ∉ label.data) →
      namehash keccak label =
        some ("0x" ++ hexEncode (keccak (zero32 ++ keccak (strBytes label))))) ∧
    (∀ keccak (l1 l2 : String), ('.' ∉ l1.data) →
      namehash keccak (l1 ++ "." ++ l2) =
        some ("0x" ++ hexEncode (keccak
          ((splitDot l2.data).reverse.foldl
              (fun node label => keccak (node ++ keccak (charsBytes label))) zero32 ++
            keccak (charsBytes l1.data))))) := by
  refine ⟨fun _ => rfl, ?_, ?_⟩
  · intro keccak label hne hdot
    rw [namehash, if_neg hne, splitDot_no_dot label.data hdot]
    rfl
  · intro keccak l1 l2 h1
    have hdata : (l1 ++ "." ++ l2).data = l1.data ++ '.' :: l2.data := by
      simp [String.data_append]
    have hne : (l1 ++ "." ++ l2) ≠ "" := by
      intro h
      have := congrArg String.data h
      rw [hdata] at this
      simp at this
    rw [namehash, if_neg hne, hdata, splitDot_append l1.data l2.data h1]
    simp only [List.reverse_cons, namehashNode, List.foldl_append, List.foldl_cons,
      List.foldl_nil]

/-- **C9 witness.** The single-label conjunct instantiated at a concrete
Keccak stand-in and the label `"eth"`. -/
theorem namehash_structure_witness :
    namehash keccakConst "eth" =
      some ("0x" ++ hexEncode (keccakConst (zero32 ++ keccakConst (strBytes "eth")))) :=
  namehash_structure.2.1 keccakConst "eth" (by decide) (by decide)

/-! ## C3 — backfill windowing -/

/-- **C3 counterexample.** The claimed window list for head 120000 and
start block 1000 — ending with `[1000, 20001]`, clipped at the configured
start block — is not what `process_past_logs` queries: the code clips the
last window at block 0 (its width test compares `current_end_block` with
49999, not with `start_block + 49999`), producing `[0, 20002]`. -/
theorem backfill_windows_not_as_claimed :
    backfillWindows 1000 120000 ≠ [(70001, 120000), (20002, 70001), (1000, 20001)] := by
  have h : backfillWindows 1000 120000 = [(70001, 120000), (20002, 70001), (0, 20002)] := by
    rw [backfillWindows, backfillWindows, backfillWindows, backfillWindows]
    norm_num
  rw [h]
  decide

/-- **C3 (amended).** The backfill pass starts from the current chain head
and walks backward in fixed-width windows, terminating exactly when
`current_end_block ≤ start_block`; the last window is clipped at block 0
(not at the configured start block): for head 120000 and start block 1000
the queried windows are `[70001,120000]`, `[20002,70001]`, `[0,20002]`. -/
theorem backfill_windows_concrete_and_termination :
    backfillWindows 1000 120000 = [(70001, 120000), (20002, 70001), (0, 20002)] ∧
    (∀ start_block current_end_block : Nat,
      backfillWindows start_block current_end_block = [] ↔
        current_end_block ≤ start_block) := by
  constructor
  · rw [backfillWindows, backfillWindows, backfillWindows, backfillWindows]
    norm_num
  · intro s e
    rw [backfillWindows]
    split
    · simp; omega
    · simp; omega

/-! ## C4 — error behaviour of transfer reconciliation -/

/-- **C4 counterexample.** Reconciliation does *not* return an error only
when both explorer calls fail: a transport failure of the `txlist` call
alone is propagated by `?` and aborts the step, even though the
`txlistinternal` call succeeded with status `"1"`. -/
theorem check_transfers_single_transport_failure_errors :
    check_transfers targetAddr ensNoRecord (.fail "connection timed out")
      (.ok ⟨"1", []⟩) dbEmpty = .error "connection timed out" := by
  rfl

/-- **C4 (amended).** `check_transfers` returns an error when either HTTP
fetch fails at the transport/decode level (propagated by `?`), or when
both decoded responses have status ≠ `"1"` (the aggregate Etherscan
error); when both fetches succeed and at least one response has status
`"1"`, reconciliation proceeds and processes the concatenation of the two
`result` lists (downstream processing may still fail on its own). -/
theorem check_transfers_error_characterization :
    (∀ target ens msg internal db,
      check_transfers target ens (.fail msg) internal db = .error msg) ∧
    (∀ target ens nr msg db,
      check_transfers target ens (.ok nr) (.fail msg) db = .error msg) ∧
    (∀ target ens nr ir db, nr.status ≠ "1" → ir.status ≠ "1" →
      check_transfers target ens (.ok nr) (.ok ir) db =
        .error "Failed to fetch data from Etherscan") ∧
    (∀ target ens nr ir db, nr.status = "1" ∨ ir.status = "1" →
      check_transfers target ens (.ok nr) (.ok ir) db =
        processTxs target ens (nr.result ++ ir.result) db) := by
  refine ⟨fun _ _ _ _ _ => rfl, fun _ _ _ _ _ => rfl, ?_, ?_⟩
  · intro target ens nr ir db h1 h2
    simp [check_transfers, h1, h2]
  · intro target ens nr ir db h
    rcases h with h | h <;> simp [check_transfers, h]

/-- **C4 witness.** The aggregate-error conjunct at concrete responses
with failing statuses. -/
theorem check_transfers_error_characterization_witness :
    check_transfers targetAddr ensNoRecord (.ok ⟨"0", []⟩) (.ok ⟨"0", []⟩) dbEmpty =
      .error "Failed to fetch data from Etherscan" :=
  check_transfers_error_characterization.2.2.1 targetAddr ensNoRecord ⟨"0", []⟩
    ⟨"0", []⟩ dbEmpty (by decide) (by decide)

/-! ## C1 — resolution failure panics the ingestion step -/

/-- **C1.** The panic branch of `resolve_ens_name` is reachable: the
source calls `.expect("Failed to call resolver")` / `.expect("Failed to
call name")` on the two contract-call results, so a failed or timed-out
call panics instead of degrading to the fallback.  The panic propagates
through `check_transfers` (here on the spec's end-to-end entry from an
empty database), killing the whole ingestion step rather than storing a
fallback display value. -/
theorem resolve_ens_name_call_failure_panics :
    resolve_ens_name ensResolverCallFails addrAA = .panicked ∧
    resolve_ens_name ensNameCallFails addrAA = .panicked ∧
    check_transfers targetAddr ensResolverCallFails (.ok ⟨"1", [txOneEth]⟩)
      (.ok ⟨"1", []⟩) dbEmpty = .panicked := by
  refine ⟨rfl, rfl, ?_⟩
  decide

/-! ## C7 — zero resolver / empty name fall back to the normalized address -/

/-- **C7.** If the registry returns the zero resolver address (for any
outcome of the second call), or the resolver returns the empty name,
resolution returns no name; and in `check_transfers`, a qualifying unseen
transfer whose sender resolves to no name is stored with its display name
equal to `Address.debugString` of the parsed sender address — the
`0x`-prefixed lowercase-hex normalized form (every character
non-uppercase). -/
theorem resolution_fallback_is_normalized_address :
    (∀ ens a, (ens a).1 = .ok Address.zero → resolve_ens_name ens a = .noName) ∧
    (∀ ens a r, (ens a).1 = .ok r → (ens a).2 = .ok "" →
      resolve_ens_name ens a = .noName) ∧
    (∀ a, ∀ c ∈ (Address.debugString a).data, c.isUpper = false) ∧
    (∀ target ens tx from_address rest db,
      Address.fromStr? tx.from_ = some from_address →
      resolve_ens_name ens from_address = .noName →
      (strToLower tx.to_ == strToLower target) = true →
      0 < parseU128OrZero tx.value →
      check_transfer_exists (generate_transfer_hash_key tx.value tx.from_ tx.hash) db
        = false →
      processTxs target ens (tx :: rest) db =
        processTxs target ens rest
          (insert_transfer tx.hash tx.from_ (ethAmountDisplay (parseU128OrZero tx.value))
            (generate_transfer_hash_key tx.value tx.from_ tx.hash)
            from_address.debugString db)) := by
  refine ⟨?_, ?_, ?_, ?_⟩
  · intro ens a h
    simp [resolve_ens_name, h]
  · intro ens a r h1 h2
    simp only [resolve_ens_name, h1, h2]
    split
    · rfl
    · simp
  · intro a c hc
    rw [Address.debugString, String.data_append] at hc
    rcases List.mem_append.mp hc with h | h
    · rcases h with _ | ⟨_, _ | ⟨_, h⟩⟩ <;> first | rfl | cases h
    · exact hexEncode_not_upper a.bytes c h
  · intro target ens tx from_address rest db hparse hresolve hto hval hexists
    rw [processTxs, if_pos hto, if_pos hval]
    simp only [hexists, Bool.false_eq_true, if_false, hparse, hresolve]

/-- **C7 witness.** The fallback conjunct on the spec's end-to-end entry:
with no reverse record the stored display name is the lowercase form of
the sender address. -/
theorem resolution_fallback_is_normalized_address_witness :
    processTxs targetAddr ensNoRecord [txOneEth] dbEmpty =
      processTxs targetAddr ensNoRecord []
        (insert_transfer txOneEth.hash txOneEth.from_
          (ethAmountDisplay (parseU128OrZero txOneEth.value))
          (generate_transfer_hash_key txOneEth.value txOneEth.from_ txOneEth.hash)
          addrAA.debugString dbEmpty) :=
  resolution_fallback_is_normalized_address.2.2.2 targetAddr ensNoRecord txOneEth
    addrAA [] dbEmpty (by decide) (by decide) (by decide) (by decide) (by decide)

/-! ## C6 — display-amount conversion -/

/-- **C6 counterexample.** The conversion to the display amount is *not*
exact in general: it goes through an `f64`, whose 53-bit significand
cannot represent `10^18 + 1`, so the wei value `10^18 + 1` is displayed as
`"1.000000000000000000"` instead of the exact `"1.000000000000000001"`. -/
theorem eth_amount_conversion_not_exact :
    ethAmountDisplay (10 ^ 18 + 1) = "1.000000000000000000" ∧
    specExactDisplay (10 ^ 18 + 1) = "1.000000000000000001" ∧
    ethAmountDisplay (10 ^ 18 + 1) ≠ specExactDisplay (10 ^ 18 + 1) := by
  refine ⟨by decide, by decide, by decide⟩

/-- **C6 (amended).** The spec's end-to-end case holds exactly: for an
explorer entry with value `"1000000000000000000"`, recipient equal to the
target, and no reverse record, the stored row has `eth_amount` exactly
`"1.000000000000000000"`, `from_name` the lowercase address, and
`hash_key` the hex SHA-256 of value ++ from ++ tx hash (`dbOneEth`).  The
integer value is converted via double-precision division by `10^18`; the
result equals the exact fixed-18-decimal amount for values exactly
representable in binary64 (such as `10^18`), but not in general (see the
counterexample). -/
theorem transfer_row_end_to_end :
    check_transfers targetAddr ensNoRecord (.ok ⟨"1", [txOneEth]⟩) (.ok ⟨"1", []⟩)
      dbEmpty = .ok dbOneEth ∧
    dbOneEth.eth_transfers.map TransferRow.eth_amount = ["1.000000000000000000"] ∧
    dbOneEth.eth_transfers.map TransferRow.hash_key =
      [generate_transfer_hash_key "1000000000000000000" fromAddrStr "0x1"] ∧
    ethAmountDisplay (10 ^ 18) = specExactDisplay (10 ^ 18) := by
  refine ⟨by decide, by decide, by decide, by decide⟩

/-! ## C2 — the donation upsert statement is invalid SQL -/

/-- Every donation insert errors: the upsert statement does not parse. -/
theorem insert_donation_always_errors (removed : Bool)
    (tx_hash log_index from_address eth_amount hash_key from_name : String)
    (db : DbState) :
    insert_donation removed tx_hash log_index from_address eth_amount hash_key
      from_name db = .error "Failed to insert donation: syntax error at end of input" := by
  have h : ¬ (donationUpsertParses = true) := by decide
  rw [insert_donation, if_neg h]

/-- A concrete decodable donation log (1 wei from `addrAA`), with the
given `removed` flag. -/
def donationLog (removed : Bool) : RpcLog :=
  ⟨some ⟨addrAA, 1⟩, removed, some (List.replicate 31 0 ++ [1]), some 0⟩

/-- **C2.** The `INSERT ... ON CONFLICT (hash_key) DO UPDATE SET` statement
of `DbClient::insert_donation` ends its `SET` list with a dangling comma,
so PostgreSQL rejects it: processing the same donation log with
`removed = false` and with `removed = true` both error out of
`process_donation_event` at the insert, and no donation row is ever
stored — the claimed one-row-with-`removed`-updated state is never
reached. -/
theorem donation_upsert_sql_rejected :
    donationUpsertParses = false ∧
    process_donation_event ensNoRecord (donationLog false) dbEmpty =
      .error "Failed to insert donation: syntax error at end of input" ∧
    process_donation_event ensNoRecord (donationLog true) dbEmpty =
      .error "Failed to insert donation: syntax error at end of input" := by
  refine ⟨by decide, by decide, by decide⟩

/-! ## C10 — oversized donation amounts -/

/-- A decodable donation log whose `uint256` amount `2^128` does not fit
in a `u128`. -/
def bigDonationLog : RpcLog :=
  ⟨some ⟨addrAA, 2 ^ 128⟩, false, some (List.replicate 31 0 ++ [2]), some 0⟩

/-- **C10 counterexample.** A donation whose amount does not fit in a
`u128` is *not* persisted: processing it returns the insert error (the
upsert statement is invalid SQL), so no row with `eth_amount`
`"0.000000000000000000"` is stored. -/
theorem big_amount_donation_not_persisted :
    process_donation_event ensNoRecord bigDonationLog dbEmpty =
      .error "Failed to insert donation: syntax error at end of input" := by
  decide

/-- **C10 (amended).** For a decoded donation amount `≥ 2^128` the
amount-string parse fails and falls back to zero, and the record is still
*submitted* for persistence (not skipped) with `eth_amount`
`"0.000000000000000000"`; the insert itself then fails because the upsert
SQL is invalid, so nothing is stored. -/
theorem big_amount_donation_falls_back_to_zero :
    parseU128? (Nat.repr (2 ^ 128)) = none ∧
    ethAmountDisplay (parseU128OrZero (Nat.repr (2 ^ 128))) = "0.000000000000000000" ∧
    process_donation_event ensNoRecord bigDonationLog dbEmpty =
      .error "Failed to insert donation: syntax error at end of input" ∧
    (∀ db : DbState, process_donation_event ensNoRecord bigDonationLog db ≠ .ok db) := by
  refine ⟨by decide, by decide, by decide, ?_⟩
  intro db h
  simp only [process_donation_event, bigDonationLog, insert_donation_always_errors] at h
  split at h <;> simp_all

/-- **C10 witness.** The not-skipped conjunct at the empty database. -/
theorem big_amount_donation_falls_back_to_zero_witness :
    process_donation_event ensNoRecord bigDonationLog dbEmpty ≠ .ok dbEmpty :=
  big_amount_donation_falls_back_to_zero.2.2.2 dbEmpty

/-! ## C8 — reconciliation is idempotent at the sink -/

/-- Inserting a transfer row preserves every existing hash key. -/
theorem exists_insert_mono {k : String} {db : DbState}
    (tx_hash from_address eth_amount hash_key from_name : String)
    (h : check_transfer_exists k db = true) :
    check_transfer_exists k
      (insert_transfer tx_hash from_address eth_amount hash_key from_name db) = true := by
  simp only [check_transfer_exists, insert_transfer, List.any_append, Bool.or_eq_true]
  exact Or.inl h

/-- The inserted row's own hash key exists afterwards. -/
theorem exists_insert_self (k : String) (db : DbState)
    (tx_hash from_address eth_amount from_name : String) :
    check_transfer_exists k
      (insert_transfer tx_hash from_address eth_amount k from_name db) = true := by
  simp [check_transfer_exists, insert_transfer]

/-- A successful `processTxs` run never forgets a transfer hash key. -/
theorem processTxs_preserves_exists (target : String) (ens : EnsOracle) :
    ∀ (txs : List TransactionInfo) (db db' : DbState) (k : String),
      processTxs target ens txs db = .ok db' →
      check_transfer_exists k db = true →
      check_transfer_exists k db' = true := by
  intro txs
  induction txs with
  | nil =>
    intro db db' k h hk
    rw [processTxs] at h
    cases h
    exact hk
  | cons tx rest ih =>
    intro db db' k h hk
    simp only [processTxs] at h
    split at h
    · split at h
      · split at h
        · exact ih db db' k h hk
        · split at h
          · cases h
          · split at h
            · cases h
            · exact ih _ db' k h (exists_insert_mono _ _ _ _ _ hk)
            · exact ih _ db' k h (exists_insert_mono _ _ _ _ _ hk)
      · exact ih db db' k h hk
    · exact ih db db' k h hk

/-- After a successful run, the hash key of every qualifying processed
transaction is present in the resulting state. -/
theorem processTxs_qualifying_keys_present (target : String) (ens : EnsOracle) :
    ∀ (txs : List TransactionInfo) (db db' : DbState),
      processTxs target ens txs db = .ok db' →
      ∀ tx ∈ txs, (strToLower tx.to_ == strToLower target) = true →
        0 < parseU128OrZero tx.value →
        check_transfer_exists (generate_transfer_hash_key tx.value tx.from_ tx.hash) db'
          = true := by
  intro txs
  induction txs with
  | nil =>
    intro db db' _ tx hmem
    cases hmem
  | cons tx0 rest ih =>
    intro db db' h tx hmem hto hval
    rcases List.mem_cons.mp hmem with rfl | hmem'
    · simp only [processTxs] at h
      rw [if_pos hto, if_pos hval] at h
      split at h
      · rename_i hex
        exact processTxs_preserves_exists target ens rest db db' _ h hex
      · split at h
        · cases h
        · split at h
          · cases h
          · exact processTxs_preserves_exists target ens rest _ db' _ h
              (exists_insert_self _ _ _ _ _ _)
          · exact processTxs_preserves_exists target ens rest _ db' _ h
              (exists_insert_self _ _ _ _ _ _)
    · simp only [processTxs] at h
      split at h
      · split at h
        · split at h
          · exact ih db db' h tx hmem' hto hval
          · split at h
            · cases h
            · split at h
              · cases h
              · exact ih _ db' h tx hmem' hto hval
              · exact ih _ db' h tx hmem' hto hval
        · exact ih db db' h tx hmem' hto hval
      · exact ih db db' h tx hmem' hto hval

/-- When every qualifying transaction's hash key is already persisted,
`processTxs` skips them all and leaves the state unchanged. -/
theorem processTxs_skips_when_present (target : String) (ens : EnsOracle) :
    ∀ (txs : List TransactionInfo) (db : DbState),
      (∀ tx ∈ txs, (strToLower tx.to_ == strToLower target) = true →
        0 < parseU128OrZero tx.value →
        check_transfer_exists (generate_transfer_hash_key tx.value tx.from_ tx.hash) db
          = true) →
      processTxs target ens txs db = .ok db := by
  intro txs
  induction txs with
  | nil => intro db _; rfl
  | cons tx rest ih =>
    intro db hpresent
    have hrest : ∀ tx' ∈ rest, (strToLower tx'.to_ == strToLower target) = true →
        0 < parseU128OrZero tx'.value →
        check_transfer_exists
          (generate_transfer_hash_key tx'.value tx'.from_ tx'.hash) db = true :=
      fun tx' hm => hpresent tx' (List.mem_cons_of_mem tx hm)
    simp only [processTxs]
    by_cases hto : (strToLower tx.to_ == strToLower target) = true
    · rw [if_pos hto]
      by_cases hval : 0 < parseU128OrZero tx.value
      · rw [if_pos hval,
          if_pos (hpresent tx (List.mem_cons_self tx rest) hto hval)]
        exact ih db hrest
      · rw [if_neg hval]
        exact ih db hrest
    · rw [if_neg hto]
      exact ih db hrest

/-- **C8.** Reconciliation is idempotent at the sink: if one
`check_transfers` run over an explorer response turns the persisted state
`db` into `db'`, running the same response again from `db'` changes
nothing — every qualifying entry's hash key is existence-checked before
insertion, and after the first run all those keys are present. -/
theorem reconcile_idempotent (target : String) (ens : EnsOracle)
    (normal internal : CallRes EtherscanResponse) (db db' : DbState)
    (h : check_transfers target ens normal internal db = .ok db') :
    check_transfers target ens normal internal db' = .ok db' := by
  cases normal with
  | fail m => cases h
  | ok nr =>
    cases internal with
    | fail m => cases h
    | ok ir =>
      rw [check_transfers] at h ⊢
      by_cases hc : (nr.status != "1" && ir.status != "1") = true
      · rw [if_pos hc] at h
        cases h
      · rw [if_neg hc] at h
        rw [if_neg hc]
        exact processTxs_skips_when_present target ens _ db'
          (fun tx hmem hto hval =>
            processTxs_qualifying_keys_present target ens _ db db' h tx hmem hto hval)

/-- **C8 witness.** Ingesting the spec's one-entry response from empty
yields `dbOneEth`; by idempotence, running the same response again from
`dbOneEth` changes nothing. -/
theorem reconcile_idempotent_witness :
    check_transfers targetAddr ensNoRecord (.ok ⟨"1", [txOneEth]⟩) (.ok ⟨"1", []⟩)
      dbOneEth = .ok dbOneEth :=
  reconcile_idempotent targetAddr ensNoRecord (.ok ⟨"1", [txOneEth]⟩) (.ok ⟨"1", []⟩)
    dbEmpty dbOneEth (by decide)

end DonationsTracker
